import Mathlib

/-!
Verification development for the real-time WebSocket message-delivery
subsystem of the `copilotcli` backend.

The definitions below are a shallow embedding of the Python sources:

* `src/backend/src/models/websocket.py` — the data model
  (`WebSocketMessage`, `WebSocketSession`, `Operation` and the enums);
* `src/backend/src/services/storage.py` — `InMemoryStorage` (the
  WebSocket-relevant slice: sessions, per-operation message histories,
  operations);
* `src/backend/src/services/websocket_manager.py` — `ConnectionManager`
  (connect / disconnect / subscribe / unsubscribe / send / broadcast /
  replay / cleanup);
* `src/backend/src/api/websocket.py` — the `acknowledge` frame handler.

Python `dict`s (insertion-ordered, unique keys) are embedded as
association lists with replace-in-place update; `datetime` values as
integers; the FastAPI `WebSocket` transport handle as a record carrying
whether `send_json` succeeds and the list of frames accepted so far.
The manager methods mutate both the manager singleton and the storage
singleton, so they are embedded as functions on a combined `Sys` state.
-/

/-- Enum `MessageType` from `models/websocket.py`. -/
inductive MessageType
  | thinking
  | execution
  | error
  | complete
  | progress
  | question
  | answer
  | connection
  deriving Repr, DecidableEq

/-- Enum `MessagePriority` from `models/websocket.py`. -/
inductive MessagePriority
  | low
  | normal
  | high
  | critical
  deriving Repr, DecidableEq

/-- Enum `OperationStatus` from `models/websocket.py`. -/
inductive OperationStatus
  | pending
  | running
  | paused
  | completed
  | failed
  | cancelled
  deriving Repr, DecidableEq

/-- Pydantic model `WebSocketMessage` from `models/websocket.py`.
`timestamp` is embedded as an integer instant; the optional `data` map is
embedded as an opaque optional string. -/
structure WebSocketMessage where
  message_id : String
  operation_id : String
  sequence : Int
  msg_type : MessageType
  content : String
  data : Option String := none
  timestamp : Int
  priority : MessagePriority := MessagePriority.normal
  is_final : Bool := false
  requires_acknowledgment : Bool := false
  collapsible : Bool := false
  formatted : Bool := false
  deriving Repr, DecidableEq

/-- Pydantic model `WebSocketSession` from `models/websocket.py`
(`client_info` omitted; it is never read). -/
structure WebSocketSession where
  connection_id : String
  user_id : Int
  session_id : String
  connected_at : Int
  last_ping_at : Int
  active_operations : List String
  last_message_sequence : Int
  acknowledged_sequence : Int
  is_connected : Bool
  reconnect_attempts : Int := 0
  deriving Repr, DecidableEq

/-- Pydantic model `Operation` from `models/websocket.py` (`result`,
`error` and `metadata` embedded as opaque optional strings). -/
structure Operation where
  operation_id : String
  operation_type : String
  feature_id : String
  user_id : Int
  connection_id : String
  status : OperationStatus := OperationStatus.pending
  progress_percentage : Int := 0
  started_at : Int
  completed_at : Option Int := none
  message_count : Int := 0
  result : Option String := none
  error : Option String := none
  deriving Repr, DecidableEq

/-! ### Python `dict` embedding

Insertion-ordered association lists with unique keys as maintained by
every Python `dict`: lookup finds the first matching key, update replaces
the value in place, a fresh key is appended at the end, `del` removes the
entry. -/

/-- Lookup `d[k]` / `d.get(k)`: first value stored under `k`. -/
def dictGet {α : Type} (l : List (String × α)) (k : String) : Option α :=
  (l.find? fun p => p.1 == k).map Prod.snd

/-- Lookup with default, `d.get(k, default)`. -/
def dictGetD {α : Type} (l : List (String × α)) (k : String) (v₀ : α) : α :=
  (dictGet l k).getD v₀

/-- Update `d[k] = v`: replace in place when the key exists, append otherwise. -/
def dictInsert {α : Type} (l : List (String × α)) (k : String) (v : α) :
    List (String × α) :=
  match l with
  | [] => [(k, v)]
  | (k', v') :: rest =>
    if k' == k then (k, v) :: rest else (k', v') :: dictInsert rest k v

/-- Deletion `del d[k]` / key removal. -/
def dictErase {α : Type} (l : List (String × α)) (k : String) :
    List (String × α) :=
  l.filter fun p => p.1 != k

/-- Membership `k in d`. -/
def dictContains {α : Type} (l : List (String × α)) (k : String) : Bool :=
  (dictGet l k).isSome

/-! ### Message ordering

`storage.get_ws_messages` returns `sorted(messages, key=lambda m: m.sequence)`;
Python's `sorted` is a stable sort on the key, embedded as the stable
`List.insertionSort` on the sequence-comparison relation. -/

/-- The `key=lambda m: m.sequence` comparison used by `sorted` in
`InMemoryStorage.get_ws_messages`. -/
def seqLE (a b : WebSocketMessage) : Prop := a.sequence ≤ b.sequence

instance : DecidableRel seqLE :=
  fun a b => inferInstanceAs (Decidable (a.sequence ≤ b.sequence))

instance : IsTotal WebSocketMessage seqLE := ⟨fun a b => le_total a.sequence b.sequence⟩

instance : IsTrans WebSocketMessage seqLE := ⟨fun _ _ _ hab hbc => le_trans hab hbc⟩

/-! ### `InMemoryStorage` (`services/storage.py`)

Only the WebSocket-relevant collections are embedded; the omitted
collections (auth sessions, repositories, documents, caches) are never
touched by the code under verification. -/

/-- The WebSocket slice of `InMemoryStorage.__init__`. -/
structure InMemoryStorage where
  ws_sessions : List (String × WebSocketSession)
  ws_messages : List (String × List WebSocketMessage)
  operations : List (String × Operation)
  deriving Repr, DecidableEq

namespace InMemoryStorage

/-- Method `InMemoryStorage.save_ws_session` (storage.py:256-259). -/
def save_ws_session (s : InMemoryStorage) (ws_session : WebSocketSession) :
    InMemoryStorage :=
  { s with ws_sessions := dictInsert s.ws_sessions ws_session.connection_id ws_session }

/-- Method `InMemoryStorage.get_ws_session` (storage.py:261-264). -/
def get_ws_session (s : InMemoryStorage) (connection_id : String) :
    Option WebSocketSession :=
  dictGet s.ws_sessions connection_id

/-- Method `InMemoryStorage.delete_ws_session` (storage.py:266-272). -/
def delete_ws_session (s : InMemoryStorage) (connection_id : String) :
    InMemoryStorage × Bool :=
  if dictContains s.ws_sessions connection_id then
    ({ s with ws_sessions := dictErase s.ws_sessions connection_id }, true)
  else
    (s, false)

/-- Method `InMemoryStorage.add_ws_message` (storage.py:282-285):
`self._ws_messages[message.operation_id].append(message)` on a
`defaultdict(list)`. -/
def add_ws_message (s : InMemoryStorage) (message : WebSocketMessage) :
    InMemoryStorage :=
  { s with
    ws_messages :=
      dictInsert s.ws_messages message.operation_id
        (dictGetD s.ws_messages message.operation_id [] ++ [message]) }

/-- Method `InMemoryStorage.get_ws_messages` (storage.py:287-293): optional
filter `m.sequence >= from_sequence`, then
`sorted(messages, key=lambda m: m.sequence)`. -/
def get_ws_messages (s : InMemoryStorage) (operation_id : String)
    (from_sequence : Option Int) : List WebSocketMessage :=
  let messages := dictGetD s.ws_messages operation_id []
  let messages :=
    match from_sequence with
    | some fs => messages.filter fun (m : WebSocketMessage) => fs ≤ m.sequence
    | none => messages
  messages.insertionSort seqLE

/-- Method `InMemoryStorage.cleanup_old_ws_messages` (storage.py:295-313): keep
`m.timestamp > cutoff_time` where `cutoff_time = now - retention`, delete
operation keys whose list became empty, return the number removed.
`now` is passed explicitly in place of `datetime.utcnow()`; the
retention window is in the same integer time unit. -/
def cleanup_old_ws_messages (s : InMemoryStorage) (now retention : Int) :
    InMemoryStorage × Nat :=
  let cutoff := now - retention
  let pruned := s.ws_messages.map fun p =>
    (p.1, p.2.filter fun (m : WebSocketMessage) => cutoff < m.timestamp)
  let removed :=
    (s.ws_messages.map fun p => p.2.length).sum -
      (pruned.map fun p => p.2.length).sum
  ({ s with ws_messages := pruned.filter fun p => ¬ p.2.isEmpty }, removed)

/-- Method `InMemoryStorage.save_operation` (storage.py:315-319), minus the
disk persistence side effect. -/
def save_operation (s : InMemoryStorage) (operation : Operation) :
    InMemoryStorage :=
  { s with operations := dictInsert s.operations operation.operation_id operation }

/-- Method `InMemoryStorage.get_operation` (storage.py:321-324). -/
def get_operation (s : InMemoryStorage) (operation_id : String) :
    Option Operation :=
  dictGet s.operations operation_id

end InMemoryStorage

/-! ### `ConnectionManager` (`services/websocket_manager.py`) -/

/-- The borrowed FastAPI `WebSocket` transport handle: `alive` is whether
`send_json` succeeds (a dead transport raises), `sent` the frames the
transport has accepted so far. -/
structure WebSocketHandle where
  alive : Bool
  sent : List WebSocketMessage
  deriving Repr, DecidableEq

/-- State of `ConnectionManager.__init__` (websocket_manager.py:47-63). -/
structure ConnectionManager where
  connections : List (String × WebSocketHandle)
  operation_subscriptions : List (String × List String)
  connection_sessions : List (String × String)
  message_queues : List (String × List WebSocketMessage)
  deriving Repr, DecidableEq

/-- Combined mutable state: the `connection_manager` singleton plus the
`storage` singleton it writes through to. -/
structure Sys where
  manager : ConnectionManager
  storage : InMemoryStorage
  deriving Repr, DecidableEq

namespace ConnectionManager

/-- Method `ConnectionManager.connect` (websocket_manager.py:69-110): register
the transport, record the session mapping, save a fresh
`WebSocketSession` (all counters 0, `is_connected=True`). -/
def connect (sys : Sys) (ws : WebSocketHandle)
    (connection_id session_id : String) (user_id : Int) (now : Int) : Sys :=
  let manager :=
    { sys.manager with
      connections := dictInsert sys.manager.connections connection_id ws
      connection_sessions :=
        dictInsert sys.manager.connection_sessions connection_id session_id }
  let ws_session : WebSocketSession :=
    { connection_id := connection_id
      user_id := user_id
      session_id := session_id
      connected_at := now
      last_ping_at := now
      active_operations := []
      last_message_sequence := 0
      acknowledged_sequence := 0
      is_connected := true }
  { manager := manager, storage := sys.storage.save_ws_session ws_session }

/-- Method `ConnectionManager.disconnect` (websocket_manager.py:112-138): pop
the transport and session mapping, discard the connection from every
operation's subscriber set deleting sets that became empty, then mark the
stored session `is_connected=False` when one exists. -/
def disconnect (sys : Sys) (connection_id : String) : Sys :=
  let manager :=
    { sys.manager with
      connections := dictErase sys.manager.connections connection_id
      connection_sessions := dictErase sys.manager.connection_sessions connection_id
      operation_subscriptions :=
        (sys.manager.operation_subscriptions.map fun p =>
            (p.1, p.2.filter fun c => c != connection_id)).filter
          fun p => ¬ p.2.isEmpty }
  let storage :=
    match sys.storage.get_ws_session connection_id with
    | some ws_session =>
      sys.storage.save_ws_session { ws_session with is_connected := false }
    | none => sys.storage
  { manager := manager, storage := storage }

/-- Method `ConnectionManager.subscribe_to_operation`
(websocket_manager.py:140-158): `set.add` on the `defaultdict(set)`
entry, then append the operation to the stored session's
`active_operations` when absent. -/
def subscribe_to_operation (sys : Sys) (connection_id operation_id : String) :
    Sys :=
  let current := dictGetD sys.manager.operation_subscriptions operation_id []
  let manager :=
    { sys.manager with
      operation_subscriptions :=
        dictInsert sys.manager.operation_subscriptions operation_id
          (if connection_id ∈ current then current else current ++ [connection_id]) }
  let storage :=
    match sys.storage.get_ws_session connection_id with
    | some ws_session =>
      if operation_id ∈ ws_session.active_operations then sys.storage
      else
        sys.storage.save_ws_session
          { ws_session with
            active_operations := ws_session.active_operations ++ [operation_id] }
    | none => sys.storage
  { manager := manager, storage := storage }

/-- Method `ConnectionManager.unsubscribe_from_operation`
(websocket_manager.py:160-182): `set.discard` when the operation key
exists, deleting the set if it became empty, then `list.remove` the
operation from the stored session's `active_operations` when present. -/
def unsubscribe_from_operation (sys : Sys)
    (connection_id operation_id : String) : Sys :=
  let manager :=
    match dictGet sys.manager.operation_subscriptions operation_id with
    | some current =>
      let current := current.filter fun c => c != connection_id
      { sys.manager with
        operation_subscriptions :=
          if current.isEmpty then
            dictErase sys.manager.operation_subscriptions operation_id
          else
            dictInsert sys.manager.operation_subscriptions operation_id current }
    | none => sys.manager
  let storage :=
    match sys.storage.get_ws_session connection_id with
    | some ws_session =>
      if operation_id ∈ ws_session.active_operations then
        sys.storage.save_ws_session
          { ws_session with
            active_operations := ws_session.active_operations.erase operation_id }
      else sys.storage
    | none => sys.storage
  { manager := manager, storage := storage }

/-- Method `ConnectionManager.send_message` (websocket_manager.py:188-205): a
missing connection is a no-op; a live transport accepts the frame; a
failing `send_json` triggers `await self.disconnect(connection_id)` with
no retry. -/
def send_message (sys : Sys) (connection_id : String)
    (message : WebSocketMessage) : Sys :=
  match dictGet sys.manager.connections connection_id with
  | none => sys
  | some ws =>
    if ws.alive then
      { sys with
        manager :=
          { sys.manager with
            connections :=
              dictInsert sys.manager.connections connection_id
                { ws with sent := ws.sent ++ [message] } } }
    else
      disconnect sys connection_id

/-- Method `ConnectionManager.broadcast_to_operation`
(websocket_manager.py:207-234): append to the in-memory queue, persist
via `storage.add_ws_message`, snapshot the subscriber set, then send to
every subscriber (each send isolated; a failed send only disconnects that
subscriber). -/
def broadcast_to_operation (sys : Sys) (operation_id : String)
    (message : WebSocketMessage) : Sys :=
  let manager :=
    { sys.manager with
      message_queues :=
        dictInsert sys.manager.message_queues operation_id
          (dictGetD sys.manager.message_queues operation_id [] ++ [message]) }
  let sys := { manager := manager, storage := sys.storage.add_ws_message message }
  let subscriber_ids := dictGetD sys.manager.operation_subscriptions operation_id []
  subscriber_ids.foldl (fun acc cid => send_message acc cid message) sys

/-- Method `ConnectionManager.replay_messages` (websocket_manager.py:262-288):
read history from `from_sequence + 1` (so strictly greater than
`from_sequence`), send each message in order to the one connection,
return the count. -/
def replay_messages (sys : Sys) (connection_id operation_id : String)
    (from_sequence : Int) : Sys × Nat :=
  let messages := sys.storage.get_ws_messages operation_id (some (from_sequence + 1))
  (messages.foldl (fun acc msg => send_message acc connection_id msg) sys,
   messages.length)

/-- Method `ConnectionManager.cleanup_old_messages`
(websocket_manager.py:294-324): prune storage, then prune the in-memory
queues with the same cutoff, deleting queues that became empty. -/
def cleanup_old_messages (sys : Sys) (now retention : Int) : Sys × Nat :=
  let (storage, removed_count) := sys.storage.cleanup_old_ws_messages now retention
  let cutoff := now - retention
  let manager :=
    { sys.manager with
      message_queues :=
        (sys.manager.message_queues.map fun p =>
            (p.1, p.2.filter fun (m : WebSocketMessage) => cutoff < m.timestamp)).filter
          fun p => ¬ p.2.isEmpty }
  ({ manager := manager, storage := storage }, removed_count)

end ConnectionManager

/-- The `acknowledge` frame handler of `websocket_endpoint`
(api/websocket.py:161-173): guarded by `if operation_id and sequence is
not None` (an empty `operation_id` is falsy); reads the stored session
for the connection and saves
`acknowledged_sequence = max(acknowledged_sequence, sequence)`.
The session keeps one `acknowledged_sequence` field; `operation_id` is
never consulted beyond the truthiness guard. -/
def websocket_acknowledge (sys : Sys) (connection_id operation_id : String)
    (sequence : Int) : Sys :=
  if operation_id == "" then sys
  else
    match sys.storage.get_ws_session connection_id with
    | some ws_session =>
      { sys with
        storage :=
          sys.storage.save_ws_session
            { ws_session with
              acknowledged_sequence := max ws_session.acknowledged_sequence sequence } }
    | none => sys

/-! ### Observation helpers -/

/-- Frames a connection's transport has accepted. -/
def sentTo (sys : Sys) (connection_id : String) : List WebSocketMessage :=
  ((dictGet sys.manager.connections connection_id).map WebSocketHandle.sent).getD []

/-- Current subscriber set of an operation (empty when untracked). -/
def subscribersOf (sys : Sys) (operation_id : String) : List String :=
  dictGetD sys.manager.operation_subscriptions operation_id []

/-! ### Concrete fixtures

Small concrete states, built through the embedded API itself, used by
the example theorems, counterexamples and witnesses below. -/

/-- Fresh storage singleton. -/
def emptyStorage : InMemoryStorage := ⟨[], [], []⟩

/-- Fresh manager + storage singletons. -/
def emptySys : Sys := { manager := ⟨[], [], [], []⟩, storage := emptyStorage }

/-- A transport whose `send_json` succeeds. -/
def liveHandle : WebSocketHandle := ⟨true, []⟩

/-- A transport whose `send_json` raises (closed/broken). -/
def deadHandle : WebSocketHandle := ⟨false, []⟩

/-- Message constructor fixing the fields no claim observes. -/
def mkMessage (message_id operation_id : String) (sequence : Int)
    (msg_type : MessageType) (timestamp : Int) (is_final : Bool := false) :
    WebSocketMessage :=
  { message_id := message_id
    operation_id := operation_id
    sequence := sequence
    msg_type := msg_type
    content := ""
    timestamp := timestamp
    is_final := is_final }

/-- THINKING(seq=0) for operation `op1`. -/
def msgT0 : WebSocketMessage := mkMessage "m0" "op1" 0 MessageType.thinking 100

/-- EXECUTION(seq=1) for operation `op1`. -/
def msgE1 : WebSocketMessage := mkMessage "m1" "op1" 1 MessageType.execution 101

/-- COMPLETE(seq=2, is_final=true) for operation `op1`. -/
def msgC2 : WebSocketMessage := mkMessage "m2" "op1" 2 MessageType.complete 102 true

/-- Messages with sequences 0..4 for operation `opX`. -/
def msgX0 : WebSocketMessage := mkMessage "x0" "opX" 0 MessageType.progress 200
def msgX1 : WebSocketMessage := mkMessage "x1" "opX" 1 MessageType.progress 201
def msgX2 : WebSocketMessage := mkMessage "x2" "opX" 2 MessageType.progress 202
def msgX3 : WebSocketMessage := mkMessage "x3" "opX" 3 MessageType.progress 203
def msgX4 : WebSocketMessage := mkMessage "x4" "opX" 4 MessageType.progress 204

/-- One live connection `c1` subscribed to `op1`. -/
def sysOne : Sys :=
  ConnectionManager.subscribe_to_operation
    (ConnectionManager.connect emptySys liveHandle "c1" "sess1" 1 0) "c1" "op1"

/-- Connection `c1` admitted, then sequences 0..4 published for `opX`
(no subscriber yet, so the history alone records them). -/
def sysFive : Sys :=
  let s := ConnectionManager.connect emptySys liveHandle "c1" "sess1" 1 100
  let s := ConnectionManager.broadcast_to_operation s "opX" msgX0
  let s := ConnectionManager.broadcast_to_operation s "opX" msgX1
  let s := ConnectionManager.broadcast_to_operation s "opX" msgX2
  let s := ConnectionManager.broadcast_to_operation s "opX" msgX3
  ConnectionManager.broadcast_to_operation s "opX" msgX4

/-- Connection `c2` admitted, the three `op1` messages published while it
is not yet subscribed, then `c2` subscribes (the reconnect scenario). -/
def sysReplay : Sys :=
  let s := ConnectionManager.connect emptySys liveHandle "c2" "sess2" 2 50
  let s := ConnectionManager.broadcast_to_operation s "op1" msgT0
  let s := ConnectionManager.broadcast_to_operation s "op1" msgE1
  let s := ConnectionManager.broadcast_to_operation s "op1" msgC2
  ConnectionManager.subscribe_to_operation s "c2" "op1"

/-- Dead connection `a` and live connection `b`, both subscribed to `op1`. -/
def sysTwo : Sys :=
  let s := ConnectionManager.connect emptySys deadHandle "a" "sa" 1 10
  let s := ConnectionManager.connect s liveHandle "b" "sb" 2 11
  let s := ConnectionManager.subscribe_to_operation s "a" "op1"
  ConnectionManager.subscribe_to_operation s "b" "op1"

/-- The session record stored for `c1` in `sysOne` (created by `connect`
at time 0, then subscribed to `op1`). -/
def sessC1 : WebSocketSession :=
  { connection_id := "c1"
    user_id := 1
    session_id := "sess1"
    connected_at := 0
    last_ping_at := 0
    active_operations := ["op1"]
    last_message_sequence := 0
    acknowledged_sequence := 0
    is_connected := true }

/-- An operation record for `op1`. -/
def opRec : Operation :=
  { operation_id := "op1"
    operation_type := "clarify"
    feature_id := "f1"
    user_id := 1
    connection_id := "c1"
    status := OperationStatus.completed
    result := some "ok"
    started_at := 5 }

/-- Storage holding the `op1` operation record and one `op1` message whose
timestamp is exactly `now - retention` for `now = 10`, `retention = 3`. -/
def stBoundary : InMemoryStorage :=
  (emptyStorage.save_operation opRec).add_ws_message
    (mkMessage "mb" "op1" 0 MessageType.progress 7)

/-- Storage after appending seq 1 and then the out-of-order seq 0. -/
def stOrdered : InMemoryStorage := emptyStorage.add_ws_message msgE1

/-- State `stOrdered` after the out-of-order append of seq 0. -/
def stViolated : InMemoryStorage := stOrdered.add_ws_message msgT0

/-! ### Lemmas about the `dict` embedding -/

theorem dictGet_nil {α : Type} (k : String) : dictGet ([] : List (String × α)) k = none := rfl

theorem dictGet_cons {α : Type} (k' : String) (v' : α) (rest : List (String × α))
    (k : String) :
    dictGet ((k', v') :: rest) k = if k' == k then some v' else dictGet rest k := by
  by_cases h : k' == k <;> simp [dictGet, List.find?, h]

theorem dictGet_insert_self {α : Type} (l : List (String × α)) (k : String) (v : α) :
    dictGet (dictInsert l k v) k = some v := by
  induction l with
  | nil => simp [dictInsert, dictGet_cons]
  | cons p rest ih =>
    obtain ⟨k', v'⟩ := p
    by_cases h : k' == k
    · simp [dictInsert, h, dictGet_cons]
    · simp [dictInsert, h, dictGet_cons, ih]

theorem dictGet_insert_ne {α : Type} (l : List (String × α)) (k : String) (v : α)
    (k' : String) (h : k' ≠ k) :
    dictGet (dictInsert l k v) k' = dictGet l k' := by
  induction l with
  | nil =>
    simp [dictInsert, dictGet_cons, dictGet_nil]
    intro hk
    exact absurd hk.symm h
  | cons p rest ih =>
    obtain ⟨k₀, v₀⟩ := p
    by_cases hk : k₀ == k
    · have hk' : k₀ = k := by simpa using hk
      subst hk'
      simp [dictInsert, dictGet_cons, Ne.symm h]
    · simp [dictInsert, hk, dictGet_cons, ih]

theorem dictInsert_insert {α : Type} (l : List (String × α)) (k : String) (v w : α) :
    dictInsert (dictInsert l k v) k w = dictInsert l k w := by
  induction l with
  | nil => simp [dictInsert]
  | cons p rest ih =>
    obtain ⟨k₀, v₀⟩ := p
    by_cases hk : k₀ == k
    · simp [dictInsert, hk]
    · simp [dictInsert, hk, ih]

theorem dictInsert_eq_self_of_get {α : Type} {l : List (String × α)} {k : String}
    {v : α} (h : dictGet l k = some v) : dictInsert l k v = l := by
  induction l with
  | nil => simp [dictGet_nil] at h
  | cons p rest ih =>
    obtain ⟨k₀, v₀⟩ := p
    by_cases hk : k₀ == k
    · have hk' : k₀ = k := by simpa using hk
      subst hk'
      rw [dictGet_cons] at h
      simp at h
      simp [dictInsert, h]
    · rw [dictGet_cons] at h
      simp [hk] at h
      simp [dictInsert, hk, ih h]

theorem dictGet_erase_self {α : Type} (l : List (String × α)) (k : String) :
    dictGet (dictErase l k) k = none := by
  induction l with
  | nil => rfl
  | cons p rest ih =>
    obtain ⟨k₀, v₀⟩ := p
    by_cases hk : k₀ == k
    · have hk' : k₀ = k := by simpa using hk
      simpa [dictErase, hk'] using ih
    · have hne : (k₀ != k) = true := by simpa using hk
      simpa [dictErase, hne, dictGet_cons, hk] using ih

theorem dictGet_erase_ne {α : Type} (l : List (String × α)) (k k' : String)
    (h : k' ≠ k) : dictGet (dictErase l k) k' = dictGet l k' := by
  induction l with
  | nil => rfl
  | cons p rest ih =>
    obtain ⟨k₀, v₀⟩ := p
    by_cases hk : k₀ == k
    · have hk₀ : k₀ = k := by simpa using hk
      subst hk₀
      have hne' : ¬ (k₀ == k') := by simpa using fun hc => h hc.symm
      simp [dictErase, dictGet_cons, hne']
      simpa [dictErase] using ih
    · have hne : (k₀ != k) = true := by simpa using hk
      by_cases hk' : k₀ == k'
      · simp [dictErase, hne, dictGet_cons, hk']
      · simp [dictErase, hne, dictGet_cons, hk']
        simpa [dictErase] using ih

theorem dictErase_erase {α : Type} (l : List (String × α)) (k : String) :
    dictErase (dictErase l k) k = dictErase l k := by
  simp [dictErase, List.filter_filter]

theorem mem_of_dictGet_eq_some {α : Type} {l : List (String × α)} {k : String}
    {v : α} (h : dictGet l k = some v) : (k, v) ∈ l := by
  induction l with
  | nil => simp [dictGet_nil] at h
  | cons p rest ih =>
    obtain ⟨k₀, v₀⟩ := p
    by_cases hk : k₀ == k
    · have hk' : k₀ = k := by simpa using hk
      subst hk'
      rw [dictGet_cons] at h
      simp at h
      simp [h]
    · rw [dictGet_cons] at h
      simp [hk] at h
      exact List.mem_cons_of_mem _ (ih h)

theorem dictGet_eq_none_of_not_mem_keys {α : Type} {l : List (String × α)}
    {k : String} (h : k ∉ l.map Prod.fst) : dictGet l k = none := by
  induction l with
  | nil => rfl
  | cons p rest ih =>
    obtain ⟨k₀, v₀⟩ := p
    have hk : k₀ ≠ k := by
      intro hc
      exact h (by simp [hc])
    have hrest : k ∉ rest.map Prod.fst := by
      intro hc
      exact h (by simp [hc])
    rw [dictGet_cons]
    simp [hk]
    exact ih hrest

theorem dictInsert_of_get_none {α : Type} {l : List (String × α)} {k : String}
    (v : α) (h : dictGet l k = none) : dictInsert l k v = l ++ [(k, v)] := by
  induction l with
  | nil => rfl
  | cons p rest ih =>
    obtain ⟨k₀, v₀⟩ := p
    rw [dictGet_cons] at h
    by_cases hk : k₀ == k
    · simp [hk] at h
    · simp [hk] at h
      simp [dictInsert, hk, ih h]

/-! ### Lemmas about `send_message` and send folds -/

theorem send_message_of_none (sys : Sys) (c : String) (m : WebSocketMessage)
    (h : dictGet sys.manager.connections c = none) :
    ConnectionManager.send_message sys c m = sys := by
  unfold ConnectionManager.send_message
  rw [h]

theorem send_message_of_alive (sys : Sys) (c : String) (m : WebSocketMessage)
    (ws : WebSocketHandle) (h : dictGet sys.manager.connections c = some ws)
    (ha : ws.alive = true) :
    ConnectionManager.send_message sys c m =
      { sys with
        manager :=
          { sys.manager with
            connections :=
              dictInsert sys.manager.connections c
                { ws with sent := ws.sent ++ [m] } } } := by
  unfold ConnectionManager.send_message
  rw [h]
  simp [ha]

theorem send_message_of_dead (sys : Sys) (c : String) (m : WebSocketMessage)
    (ws : WebSocketHandle) (h : dictGet sys.manager.connections c = some ws)
    (ha : ws.alive = false) :
    ConnectionManager.send_message sys c m = ConnectionManager.disconnect sys c := by
  unfold ConnectionManager.send_message
  rw [h]
  simp [ha]

theorem send_message_lookup_other (sys : Sys) (c : String) (m : WebSocketMessage)
    (b : String) (hne : b ≠ c) :
    dictGet (ConnectionManager.send_message sys c m).manager.connections b =
      dictGet sys.manager.connections b := by
  cases h : dictGet sys.manager.connections c with
  | none => rw [send_message_of_none sys c m h]
  | some wc =>
    cases ha : wc.alive with
    | true =>
      rw [send_message_of_alive sys c m wc h ha]
      exact dictGet_insert_ne _ _ _ _ hne
    | false =>
      rw [send_message_of_dead sys c m wc h ha]
      simp only [ConnectionManager.disconnect]
      exact dictGet_erase_ne _ _ _ hne

theorem send_message_none_preserved (sys : Sys) (c : String) (m : WebSocketMessage)
    (a : String) (h : dictGet sys.manager.connections a = none) :
    dictGet (ConnectionManager.send_message sys c m).manager.connections a = none := by
  by_cases hac : a = c
  · subst hac
    rw [send_message_of_none sys a m h]
    exact h
  · rw [send_message_lookup_other sys c m a hac]
    exact h

theorem foldSend_alive (msgs : List WebSocketMessage) (sys : Sys) (cid : String)
    (ws : WebSocketHandle) (hconn : dictGet sys.manager.connections cid = some ws)
    (halive : ws.alive = true) :
    msgs.foldl (fun acc m => ConnectionManager.send_message acc cid m) sys =
      { sys with
        manager :=
          { sys.manager with
            connections :=
              dictInsert sys.manager.connections cid
                { ws with sent := ws.sent ++ msgs } } } := by
  induction msgs generalizing sys ws with
  | nil =>
    show sys = _
    rw [List.append_nil]
    have hws : { ws with sent := ws.sent } = ws := rfl
    rw [hws, dictInsert_eq_self_of_get hconn]
  | cons m rest ih =>
    show rest.foldl _ (ConnectionManager.send_message sys cid m) = _
    rw [send_message_of_alive sys cid m ws hconn halive]
    rw [ih _ { ws with sent := ws.sent ++ [m] } (dictGet_insert_self _ _ _) halive]
    simp [dictInsert_insert, List.append_assoc]

/-- Reading `fs + 1 ≤ seq` (the code's inclusive read from `from_sequence + 1`)
is exactly `fs < seq` over the integers. -/
theorem filter_succ_eq_filter_lt (l : List WebSocketMessage) (fs : Int) :
    (l.filter fun (m : WebSocketMessage) => fs + 1 ≤ m.sequence) =
      l.filter fun (m : WebSocketMessage) => fs < m.sequence := by
  apply List.filter_congr
  intro m _
  simp [Int.add_one_le_iff]

/-! ### Claim theorems -/

/-- C1 (counterexample): the Message History Store does **not** reject a
duplicate/out-of-order append. Appending seq 1 and then the out-of-order
seq 0 for `op1`: the violating message is stored (log is
`[seq 1, seq 0]`), and a subsequent read differs from the read before the
violating append — the store sorts, i.e. silently reorders, instead of
dropping. -/
theorem c1_append_rejection_counterexample :
    dictGetD stViolated.ws_messages "op1" [] = [msgE1, msgT0]
    ∧ stViolated.get_ws_messages "op1" none = [msgT0, msgE1]
    ∧ stOrdered.get_ws_messages "op1" none = [msgE1]
    ∧ stViolated.get_ws_messages "op1" none ≠ stOrdered.get_ws_messages "op1" none := by
  decide

/-- C1 (amended): `add_ws_message` never rejects: every append — duplicate
and out-of-order sequences included — is stored at the end of its
operation's log without touching other operations, and `get_ws_messages`
returns the log sorted ascending by sequence (a permutation of the stored
log), so ordering is restored at read time rather than enforced at the
append step. -/
theorem c1_store_accepts_every_append (s : InMemoryStorage) (m : WebSocketMessage) :
    dictGet (s.add_ws_message m).ws_messages m.operation_id =
      some (dictGetD s.ws_messages m.operation_id [] ++ [m])
    ∧ (∀ op, op ≠ m.operation_id →
        dictGet (s.add_ws_message m).ws_messages op = dictGet s.ws_messages op)
    ∧ (∀ op, (s.get_ws_messages op none).Perm (dictGetD s.ws_messages op [])
        ∧ (s.get_ws_messages op none).Sorted seqLE) := by
  refine ⟨?_, ?_, ?_⟩
  · simp [InMemoryStorage.add_ws_message, dictGet_insert_self]
  · intro op hop
    simp [InMemoryStorage.add_ws_message, dictGet_insert_ne _ _ _ _ hop]
  · intro op
    constructor
    · simpa [InMemoryStorage.get_ws_messages] using
        List.perm_insertionSort seqLE (dictGetD s.ws_messages op [])
    · simpa [InMemoryStorage.get_ws_messages] using
        List.sorted_insertionSort seqLE (dictGetD s.ws_messages op [])

/-- C1 (witness for the amended theorem at a concrete input). -/
theorem c1_store_accepts_every_append_witness :
    dictGet (stOrdered.add_ws_message msgT0).ws_messages "op1" =
      some (dictGetD stOrdered.ws_messages "op1" [] ++ [msgT0])
    ∧ dictGet (stOrdered.add_ws_message msgT0).ws_messages "zz" =
        dictGet stOrdered.ws_messages "zz" :=
  ⟨(c1_store_accepts_every_append stOrdered msgT0).1,
   (c1_store_accepts_every_append stOrdered msgT0).2.1 "zz" (by decide)⟩

/-- C2: `replay_messages conn op fs` on a live connection sends exactly
the retained messages with sequence strictly greater than `fs`, in
ascending sequence order, appended to that connection's transport only,
and returns their count; with sequences `[0,1,2,3,4]` stored for `opX`,
replay from 1 yields `[2,3,4]` and replay from 4 yields `[]`. -/
theorem c2_replay_strictly_greater (sys : Sys) (cid op : String) (fs : Int)
    (ws : WebSocketHandle) (hconn : dictGet sys.manager.connections cid = some ws)
    (halive : ws.alive = true) :
    (ConnectionManager.replay_messages sys cid op fs).2 =
      (sys.storage.get_ws_messages op (some (fs + 1))).length
    ∧ sentTo (ConnectionManager.replay_messages sys cid op fs).1 cid =
        sentTo sys cid ++ sys.storage.get_ws_messages op (some (fs + 1))
    ∧ (sys.storage.get_ws_messages op (some (fs + 1))).Sorted seqLE
    ∧ (sys.storage.get_ws_messages op (some (fs + 1))).Perm
        ((dictGetD sys.storage.ws_messages op []).filter
          fun (m : WebSocketMessage) => fs < m.sequence)
    ∧ (∀ c', c' ≠ cid →
        dictGet (ConnectionManager.replay_messages sys cid op fs).1.manager.connections c' =
          dictGet sys.manager.connections c')
    ∧ (ConnectionManager.replay_messages sys cid op fs).1.storage = sys.storage
    ∧ (ConnectionManager.replay_messages sysFive "c1" "opX" 1).2 = 3
    ∧ sentTo (ConnectionManager.replay_messages sysFive "c1" "opX" 1).1 "c1" =
        [msgX2, msgX3, msgX4]
    ∧ (ConnectionManager.replay_messages sysFive "c1" "opX" 4).2 = 0
    ∧ sentTo (ConnectionManager.replay_messages sysFive "c1" "opX" 4).1 "c1" = [] := by
  have hfold :
      (ConnectionManager.replay_messages sys cid op fs).1 =
        { sys with
          manager :=
            { sys.manager with
              connections :=
                dictInsert sys.manager.connections cid
                  { ws with
                    sent := ws.sent ++ sys.storage.get_ws_messages op (some (fs + 1)) } } } :=
    foldSend_alive _ sys cid ws hconn halive
  refine ⟨rfl, ?_, ?_, ?_, ?_, ?_, by decide, by decide, by decide, by decide⟩
  · rw [hfold]
    simp [sentTo, dictGet_insert_self, hconn]
  · simpa [InMemoryStorage.get_ws_messages] using
      List.sorted_insertionSort seqLE _
  · have hp := List.perm_insertionSort seqLE
      ((dictGetD sys.storage.ws_messages op []).filter
        fun (m : WebSocketMessage) => fs + 1 ≤ m.sequence)
    rw [filter_succ_eq_filter_lt] at hp
    simpa [InMemoryStorage.get_ws_messages] using hp
  · intro c' hc'
    rw [hfold]
    exact dictGet_insert_ne _ _ _ _ hc'
  · rw [hfold]

/-- C2 (witness at a concrete input). -/
theorem c2_replay_strictly_greater_witness :
    (ConnectionManager.replay_messages sysFive "c1" "opX" 1).2 =
      (sysFive.storage.get_ws_messages "opX" (some 2)).length :=
  (c2_replay_strictly_greater sysFive "c1" "opX" 1 liveHandle (by decide) (by decide)).1

/-- C3 (counterexample): with seq 0,1,2 (`is_final` on seq 2) published
for `op1` and `c2` subscribing only afterwards, `replay(c2, op1,
from_sequence=0)` is **not** treated as "from start": it sends only the
messages with sequence 1 and 2; the seq-0 message is never delivered
because `from_sequence` is exclusive. -/
theorem c3_from_zero_counterexample :
    (ConnectionManager.replay_messages sysReplay "c2" "op1" 0).2 = 2
    ∧ sentTo (ConnectionManager.replay_messages sysReplay "c2" "op1" 0).1 "c2" =
        [msgE1, msgC2]
    ∧ msgT0 ∉ sentTo (ConnectionManager.replay_messages sysReplay "c2" "op1" 0).1 "c2" := by
  decide

/-- C3 (amended): only `from_sequence = -1` replays from the start: the
late subscriber then receives all three messages in ascending order
ending with the `is_final=true` message; `from_sequence = 0` receives
only sequences 1 and 2. -/
theorem c3_replay_from_start :
    (ConnectionManager.replay_messages sysReplay "c2" "op1" (-1)).2 = 3
    ∧ sentTo (ConnectionManager.replay_messages sysReplay "c2" "op1" (-1)).1 "c2" =
        [msgT0, msgE1, msgC2]
    ∧ (sentTo (ConnectionManager.replay_messages sysReplay "c2" "op1" (-1)).1 "c2").getLast? =
        some msgC2
    ∧ msgC2.is_final = true
    ∧ (ConnectionManager.replay_messages sysReplay "c2" "op1" 0).2 = 2
    ∧ sentTo (ConnectionManager.replay_messages sysReplay "c2" "op1" 0).1 "c2" =
        [msgE1, msgC2] := by
  decide

/-! ### Fan-out lemmas (folds over the subscriber snapshot) -/

theorem foldSend_ids_alive (ids : List String) (sys : Sys) (msg : WebSocketMessage)
    (b : String) (wb : WebSocketHandle)
    (hb : dictGet sys.manager.connections b = some wb) (halive : wb.alive = true) :
    ∃ wb',
      dictGet ((ids.foldl (fun acc c => ConnectionManager.send_message acc c msg)
          sys).manager.connections) b = some wb'
      ∧ wb'.alive = true
      ∧ wb'.sent = wb.sent ++ List.replicate (ids.count b) msg := by
  induction ids generalizing sys wb with
  | nil => exact ⟨wb, hb, halive, by simp⟩
  | cons c rest ih =>
    by_cases hcb : c = b
    · subst hcb
      rw [List.foldl_cons, send_message_of_alive sys c msg wb hb halive]
      obtain ⟨wb', h1, h2, h3⟩ :=
        ih { sys with
              manager :=
                { sys.manager with
                  connections :=
                    dictInsert sys.manager.connections c
                      { wb with sent := wb.sent ++ [msg] } } }
          { wb with sent := wb.sent ++ [msg] } (dictGet_insert_self _ _ _) halive
      refine ⟨wb', h1, h2, ?_⟩
      rw [h3]
      simp [List.count_cons_self, List.replicate_succ, List.append_assoc]
    · rw [List.foldl_cons]
      have hb' : dictGet (ConnectionManager.send_message sys c msg).manager.connections b =
          some wb := by
        rw [send_message_lookup_other sys c msg b (fun e => hcb e.symm)]
        exact hb
      obtain ⟨wb', h1, h2, h3⟩ := ih _ wb hb' halive
      refine ⟨wb', h1, h2, ?_⟩
      rw [h3, List.count_cons_of_ne (fun e => hcb e.symm)]

theorem foldSend_none (ids : List String) (sys : Sys) (msg : WebSocketMessage)
    (a : String) (h : dictGet sys.manager.connections a = none) :
    dictGet ((ids.foldl (fun acc c => ConnectionManager.send_message acc c msg)
        sys).manager.connections) a = none := by
  induction ids generalizing sys with
  | nil => exact h
  | cons c rest ih =>
    rw [List.foldl_cons]
    exact ih _ (send_message_none_preserved sys c msg a h)

theorem foldSend_dead (ids : List String) (sys : Sys) (msg : WebSocketMessage)
    (a : String)
    (h : ∀ w, dictGet sys.manager.connections a = some w → w.alive = false)
    (hmem : a ∈ ids) :
    dictGet ((ids.foldl (fun acc c => ConnectionManager.send_message acc c msg)
        sys).manager.connections) a = none := by
  induction ids generalizing sys with
  | nil => simp at hmem
  | cons c rest ih =>
    rw [List.foldl_cons]
    by_cases hca : c = a
    · subst hca
      cases hl : dictGet sys.manager.connections c with
      | none =>
        rw [send_message_of_none sys c msg hl]
        exact foldSend_none rest sys msg c hl
      | some w =>
        rw [send_message_of_dead sys c msg w hl (h w hl)]
        have hgone : dictGet (ConnectionManager.disconnect sys c).manager.connections c =
            none := by
          simp only [ConnectionManager.disconnect]
          exact dictGet_erase_self _ _
        exact foldSend_none rest _ msg c hgone
    · have hmem' : a ∈ rest := by
        cases List.mem_cons.mp hmem with
        | inl e => exact absurd e.symm hca
        | inr hr => exact hr
      refine ih _ ?_ hmem'
      intro w hw
      rw [send_message_lookup_other sys c msg a (fun e => hca e.symm)] at hw
      exact h w hw

/-- Unfolding of `broadcast_to_operation`: queue append, history append, then
a send fold over the subscriber snapshot. -/
theorem broadcast_eq (sys : Sys) (op : String) (msg : WebSocketMessage) :
    ConnectionManager.broadcast_to_operation sys op msg =
      (subscribersOf sys op).foldl
        (fun acc cid => ConnectionManager.send_message acc cid msg)
        { manager :=
            { sys.manager with
              message_queues :=
                dictInsert sys.manager.message_queues op
                  (dictGetD sys.manager.message_queues op [] ++ [msg]) }
          storage := sys.storage.add_ws_message msg } := rfl

/-- C4: `publish` (broadcast) attempts each subscriber's send
independently and never raises (it is a total function of the state): a
subscriber whose transport fails is removed from the Connection Registry
(implicit disconnect, no retry), while every other live subscriber of the
operation still receives the message. -/
theorem c4_fanout_isolation (sys : Sys) (op : String) (msg : WebSocketMessage)
    (a b : String) (wsa wsb : WebSocketHandle)
    (hsa : a ∈ subscribersOf sys op) (hsb : b ∈ subscribersOf sys op)
    (ha : dictGet sys.manager.connections a = some wsa) (hdead : wsa.alive = false)
    (hb : dictGet sys.manager.connections b = some wsb) (halive : wsb.alive = true) :
    (∃ wsb',
      dictGet (ConnectionManager.broadcast_to_operation sys op msg).manager.connections b =
        some wsb'
      ∧ wsb'.alive = true ∧ msg ∈ wsb'.sent)
    ∧ dictGet (ConnectionManager.broadcast_to_operation sys op msg).manager.connections a =
        none := by
  rw [broadcast_eq]
  constructor
  · have hb' :
        dictGet
          ({ manager :=
              { sys.manager with
                message_queues :=
                  dictInsert sys.manager.message_queues op
                    (dictGetD sys.manager.message_queues op [] ++ [msg]) }
             storage := sys.storage.add_ws_message msg } : Sys).manager.connections b =
          some wsb := hb
    obtain ⟨wsb', h1, h2, h3⟩ := foldSend_ids_alive (subscribersOf sys op) _ msg b wsb hb' halive
    refine ⟨wsb', h1, h2, ?_⟩
    rw [h3]
    refine List.mem_append_right _ ?_
    have hpos : 0 < (subscribersOf sys op).count b := List.count_pos_iff.mpr hsb
    exact List.mem_replicate.mpr ⟨hpos.ne', rfl⟩
  · refine foldSend_dead (subscribersOf sys op) _ msg a ?_ hsa
    intro w hw
    have ha' :
        dictGet
          ({ manager :=
              { sys.manager with
                message_queues :=
                  dictInsert sys.manager.message_queues op
                    (dictGetD sys.manager.message_queues op [] ++ [msg]) }
             storage := sys.storage.add_ws_message msg } : Sys).manager.connections a =
          some wsa := ha
    rw [ha'] at hw
    cases hw
    exact hdead

/-- C4 (witness): in `sysTwo`, broadcasting to `op1` delivers to the
live subscriber `b` and evicts the dead subscriber `a`. -/
theorem c4_fanout_isolation_witness :
    (∃ wsb',
      dictGet (ConnectionManager.broadcast_to_operation sysTwo "op1" msgT0).manager.connections
          "b" = some wsb'
      ∧ wsb'.alive = true ∧ msgT0 ∈ wsb'.sent)
    ∧ dictGet (ConnectionManager.broadcast_to_operation sysTwo "op1" msgT0).manager.connections
        "a" = none :=
  c4_fanout_isolation sysTwo "op1" msgT0 "a" "b" deadHandle liveHandle
    (by decide) (by decide) (by decide) (by decide) (by decide) (by decide)

/-- C5 (counterexample): the session stores a single
`acknowledged_sequence`, not one per operation. After
`acknowledge(c1, op1, 5)` followed by `acknowledge(c1, op2, 3)` the
acknowledged sequence any reader observes — for `op2` as much as for
`op1` — is 5, whereas per-operation independence would leave `op2`'s at
`max(0, 3) = 3`. -/
theorem c5_per_operation_counterexample :
    ((websocket_acknowledge (websocket_acknowledge sysOne "c1" "op1" 5) "c1" "op2" 3).storage.get_ws_session
        "c1").map WebSocketSession.acknowledged_sequence = some 5
    ∧ ((websocket_acknowledge sysOne "c1" "op1" 5).storage.get_ws_session "c1").map
        WebSocketSession.acknowledged_sequence = some 5
    ∧ (5 : Int) ≠ 3 := by
  decide

/-- C5 (amended): `ACKNOWLEDGE(connection, operation, s)` sets the
connection's **single, operation-shared** `acknowledged_sequence` to
`max(current, s)` — so it never moves backward, and `acknowledge(c, op, 5)`
then `acknowledge(c, op, 3)` leaves it at 5 — but an acknowledgment for
one operation also raises the value observed for every other operation of
that connection. -/
theorem c5_ack_monotone_shared (sys : Sys) (cid op : String) (s : Int)
    (sess : WebSocketSession) (hop : op ≠ "")
    (h : sys.storage.get_ws_session cid = some sess)
    (hkey : sess.connection_id = cid) :
    (websocket_acknowledge sys cid op s).storage.get_ws_session cid =
      some { sess with acknowledged_sequence := max sess.acknowledged_sequence s }
    ∧ sess.acknowledged_sequence ≤ max sess.acknowledged_sequence s
    ∧ ((websocket_acknowledge (websocket_acknowledge sysOne "c1" "op1" 5) "c1" "op1" 3).storage.get_ws_session
        "c1").map WebSocketSession.acknowledged_sequence = some 5 := by
    refine ⟨?_, le_max_left _ _, by decide⟩
    unfold websocket_acknowledge
    have hop' : (op == "") = false := by simpa using hop
    rw [hop']
    simp only [Bool.false_eq_true, if_false, h]
    show (sys.storage.save_ws_session _).get_ws_session cid = _
    unfold InMemoryStorage.save_ws_session InMemoryStorage.get_ws_session
    show dictGet (dictInsert sys.storage.ws_sessions sess.connection_id _) cid = _
    rw [hkey]
    exact dictGet_insert_self _ _ _

/-- C5 (witness for the amended theorem at a concrete input). -/
theorem c5_ack_monotone_shared_witness :
    (websocket_acknowledge sysOne "c1" "op1" 5).storage.get_ws_session "c1" =
      some { sessC1 with acknowledged_sequence := max sessC1.acknowledged_sequence 5 } :=
  (c5_ack_monotone_shared sysOne "c1" "op1" 5 sessC1 (by decide) (by decide) (by decide)).1

/-- C10: `disconnect` never deletes the stored `WebSocketSession`: for a
session stored under its own connection id, the record still exists after
`disconnect` with `is_connected = false` and `connection_id`,
`acknowledged_sequence`, `active_operations` and `last_message_sequence`
unchanged. -/
theorem c10_disconnect_preserves_session (sys : Sys) (c : String)
    (sess : WebSocketSession) (h : sys.storage.get_ws_session c = some sess)
    (hkey : sess.connection_id = c) :
    ∃ sess',
      (ConnectionManager.disconnect sys c).storage.get_ws_session c = some sess'
      ∧ sess'.is_connected = false
      ∧ sess'.connection_id = sess.connection_id
      ∧ sess'.acknowledged_sequence = sess.acknowledged_sequence
      ∧ sess'.active_operations = sess.active_operations
      ∧ sess'.last_message_sequence = sess.last_message_sequence := by
  refine ⟨{ sess with is_connected := false }, ?_, rfl, rfl, rfl, rfl, rfl⟩
  unfold ConnectionManager.disconnect
  rw [h]
  show (sys.storage.save_ws_session _).get_ws_session c = _
  unfold InMemoryStorage.save_ws_session InMemoryStorage.get_ws_session
  show dictGet (dictInsert sys.storage.ws_sessions sess.connection_id _) c = _
  rw [hkey]
  exact dictGet_insert_self _ _ _

/-- C10 (witness at a concrete input). -/
theorem c10_disconnect_preserves_session_witness :
    ∃ sess',
      (ConnectionManager.disconnect sysOne "c1").storage.get_ws_session "c1" = some sess'
      ∧ sess'.is_connected = false
      ∧ sess'.connection_id = sessC1.connection_id
      ∧ sess'.acknowledged_sequence = sessC1.acknowledged_sequence
      ∧ sess'.active_operations = sessC1.active_operations
      ∧ sess'.last_message_sequence = sessC1.last_message_sequence :=
  c10_disconnect_preserves_session sysOne "c1" sessC1 (by decide) (by decide)

/-- Every entry of `dictInsert l k v` is `(k, v)` or an entry of `l`. -/
theorem mem_dictInsert {α : Type} {l : List (String × α)} {k : String} {v : α}
    {p : String × α} (hp : p ∈ dictInsert l k v) : p = (k, v) ∨ p ∈ l := by
  induction l with
  | nil => simpa [dictInsert] using hp
  | cons q rest ih =>
    obtain ⟨k₀, v₀⟩ := q
    by_cases hk : k₀ == k
    · simp [dictInsert, hk] at hp
      rcases hp with h | h
      · exact Or.inl (by simp [h])
      · exact Or.inr (List.mem_cons_of_mem _ h)
    · simp [dictInsert, hk] at hp
      rcases hp with h | h
      · exact Or.inr (by simp [h])
      · rcases ih h with h' | h'
        · exact Or.inl h'
        · exact Or.inr (List.mem_cons_of_mem _ h')

/-- Sending via `send_message` preserves self-keyed sessions and never changes any
session's `last_message_sequence`. -/
theorem send_message_sessions_last (sys : Sys) (c : String) (m : WebSocketMessage)
    (hwf : ∀ p ∈ sys.storage.ws_sessions,
      (p.2 : WebSocketSession).connection_id = p.1) :
    (∀ p ∈ (ConnectionManager.send_message sys c m).storage.ws_sessions,
      (p.2 : WebSocketSession).connection_id = p.1)
    ∧ ∀ x, ((ConnectionManager.send_message sys c m).storage.get_ws_session x).map
          WebSocketSession.last_message_sequence =
        (sys.storage.get_ws_session x).map WebSocketSession.last_message_sequence := by
  cases hl : dictGet sys.manager.connections c with
  | none =>
    rw [send_message_of_none sys c m hl]
    exact ⟨hwf, fun _ => rfl⟩
  | some wc =>
    cases ha : wc.alive with
    | true =>
      rw [send_message_of_alive sys c m wc hl ha]
      exact ⟨hwf, fun _ => rfl⟩
    | false =>
      rw [send_message_of_dead sys c m wc hl ha]
      cases hs : sys.storage.get_ws_session c with
      | none =>
        have hst : (ConnectionManager.disconnect sys c).storage = sys.storage := by
          simp only [ConnectionManager.disconnect, hs]
        rw [hst]
        exact ⟨hwf, fun _ => rfl⟩
      | some sess =>
        have hckey : sess.connection_id = c :=
          hwf (c, sess) (mem_of_dictGet_eq_some hs)
        have hst : (ConnectionManager.disconnect sys c).storage =
            sys.storage.save_ws_session { sess with is_connected := false } := by
          simp only [ConnectionManager.disconnect, hs]
        rw [hst]
        constructor
        · intro p hp
          rcases mem_dictInsert hp with h | h
          · rw [h]
          · exact hwf p h
        · intro x
          show ((dictGet
              (dictInsert sys.storage.ws_sessions
                ({ sess with is_connected := false } : WebSocketSession).connection_id
                { sess with is_connected := false }) x).map
              WebSocketSession.last_message_sequence) = _
          by_cases hxc : x = c
          · subst hxc
            have : ({ sess with is_connected := false } : WebSocketSession).connection_id
                = x := hckey
            rw [this, dictGet_insert_self]
            unfold InMemoryStorage.get_ws_session at hs
            simp [InMemoryStorage.get_ws_session, hs]
          · have : ({ sess with is_connected := false } : WebSocketSession).connection_id
                = c := hckey
            rw [this, dictGet_insert_ne _ _ _ _ hxc]
            rfl

/-- Send folds preserve self-keyed sessions and `last_message_sequence`. -/
theorem foldSend_sessions_last (ids : List String) (sys : Sys) (m : WebSocketMessage)
    (hwf : ∀ p ∈ sys.storage.ws_sessions,
      (p.2 : WebSocketSession).connection_id = p.1) :
    (∀ p ∈ ((ids.foldl (fun acc c => ConnectionManager.send_message acc c m)
        sys)).storage.ws_sessions, (p.2 : WebSocketSession).connection_id = p.1)
    ∧ ∀ x, (((ids.foldl (fun acc c => ConnectionManager.send_message acc c m)
          sys)).storage.get_ws_session x).map WebSocketSession.last_message_sequence =
        (sys.storage.get_ws_session x).map WebSocketSession.last_message_sequence := by
  induction ids generalizing sys with
  | nil => exact ⟨hwf, fun _ => rfl⟩
  | cons c rest ih =>
    rw [List.foldl_cons]
    obtain ⟨hwf', hlast'⟩ := send_message_sessions_last sys c m hwf
    obtain ⟨hwf'', hlast''⟩ := ih _ hwf'
    exact ⟨hwf'', fun x => (hlast'' x).trans (hlast' x)⟩

/-- C8 (counterexample): in `sysOne` the live connection `c1` receives
the broadcast COMPLETE(seq=2) message successfully, yet its session's
`last_message_sequence` stays 0 — nothing in the delivery path updates
the last-sent tracking. -/
theorem c8_last_sent_counterexample :
    msgC2 ∈ sentTo (ConnectionManager.broadcast_to_operation sysOne "op1" msgC2) "c1"
    ∧ ((ConnectionManager.broadcast_to_operation sysOne "op1" msgC2).storage.get_ws_session
        "c1").map WebSocketSession.last_message_sequence = some 0
    ∧ msgC2.sequence = 2
    ∧ (0 : Int) ≠ 2 := by
  decide

/-- C8 (amended): `broadcast_to_operation` never updates
`last_message_sequence`: for every state whose stored sessions are keyed
by their own connection id, every session's `last_message_sequence` after
a publish equals its value before, delivery success notwithstanding. -/
theorem c8_last_sent_never_updated (sys : Sys) (op : String) (msg : WebSocketMessage)
    (hwf : ∀ p ∈ sys.storage.ws_sessions,
      (p.2 : WebSocketSession).connection_id = p.1) :
    ∀ x, ((ConnectionManager.broadcast_to_operation sys op msg).storage.get_ws_session
          x).map WebSocketSession.last_message_sequence =
        (sys.storage.get_ws_session x).map WebSocketSession.last_message_sequence := by
  intro x
  rw [broadcast_eq]
  have hwf₁ : ∀ p ∈ (sys.storage.add_ws_message msg).ws_sessions,
      (p.2 : WebSocketSession).connection_id = p.1 := hwf
  exact (foldSend_sessions_last (subscribersOf sys op)
    { manager :=
        { sys.manager with
          message_queues :=
            dictInsert sys.manager.message_queues op
              (dictGetD sys.manager.message_queues op [] ++ [msg]) }
      storage := sys.storage.add_ws_message msg } msg hwf₁).2 x

/-- C8 (witness for the amended theorem at a concrete input). -/
theorem c8_last_sent_never_updated_witness :
    ((ConnectionManager.broadcast_to_operation sysOne "op1" msgC2).storage.get_ws_session
        "c1").map WebSocketSession.last_message_sequence =
      (sysOne.storage.get_ws_session "c1").map WebSocketSession.last_message_sequence :=
  c8_last_sent_never_updated sysOne "op1" msgC2 (by decide) "c1"

/-- C9 (counterexample): `subscribe` referencing ids not currently
tracked is **not** a no-op: on a fresh system,
`subscribe_to_operation("ghost", "op9")` inserts the unknown connection
into a newly created subscriber set for the unknown operation, changing
observable state. -/
theorem c9_subscribe_not_noop_counterexample :
    (ConnectionManager.subscribe_to_operation emptySys "ghost" "op9").manager.operation_subscriptions =
      [("op9", ["ghost"])]
    ∧ (ConnectionManager.subscribe_to_operation emptySys "ghost" "op9").manager.operation_subscriptions ≠
        emptySys.manager.operation_subscriptions := by
  decide

/-- C9 (amended): `replay` for an untracked operation replays zero
messages and leaves the whole state unchanged, and `acknowledge` for an
untracked connection is a pure no-op; `subscribe`, however, still raises
no error but records the untracked connection in the operation's
subscriber set (appending a fresh entry for an untracked operation) while
leaving the session store unchanged. -/
theorem c9_unknown_reference_behavior (sys : Sys) (cid op : String) (fs s : Int)
    (hmsg : dictGet sys.storage.ws_messages op = none)
    (hsess : sys.storage.get_ws_session cid = none)
    (hsubs : dictGet sys.manager.operation_subscriptions op = none) :
    ConnectionManager.replay_messages sys cid op fs = (sys, 0)
    ∧ websocket_acknowledge sys cid op s = sys
    ∧ (ConnectionManager.subscribe_to_operation sys cid op).manager.operation_subscriptions =
        sys.manager.operation_subscriptions ++ [(op, [cid])]
    ∧ (ConnectionManager.subscribe_to_operation sys cid op).storage = sys.storage := by
  refine ⟨?_, ?_, ?_, ?_⟩
  · have hm : sys.storage.get_ws_messages op (some (fs + 1)) = [] := by
      simp [InMemoryStorage.get_ws_messages, dictGetD, hmsg]
    unfold ConnectionManager.replay_messages
    rw [hm]
    rfl
  · unfold websocket_acknowledge
    cases hop : (op == "") with
    | true => rfl
    | false =>
      rw [hsess]
      simp
  · unfold ConnectionManager.subscribe_to_operation
    have hcur : dictGetD sys.manager.operation_subscriptions op [] = [] := by
      simp [dictGetD, hsubs]
    rw [hcur]
    simp only [List.not_mem_nil, if_neg, List.nil_append]
    exact dictInsert_of_get_none _ hsubs
  · unfold ConnectionManager.subscribe_to_operation
    rw [hsess]

/-- C9 (witness for the amended theorem at a concrete input). -/
theorem c9_unknown_reference_behavior_witness :
    ConnectionManager.replay_messages emptySys "ghost" "op9" 0 = (emptySys, 0)
    ∧ websocket_acknowledge emptySys "ghost" "op9" 7 = emptySys
    ∧ (ConnectionManager.subscribe_to_operation emptySys "ghost" "op9").manager.operation_subscriptions =
        emptySys.manager.operation_subscriptions ++ [("op9", ["ghost"])]
    ∧ (ConnectionManager.subscribe_to_operation emptySys "ghost" "op9").storage =
        emptySys.storage :=
  c9_unknown_reference_behavior emptySys "ghost" "op9" 0 7 (by decide) (by decide) (by decide)

/-! ### Record extensionality helpers -/

theorem sysExt {a b : Sys} (h1 : a.manager = b.manager) (h2 : a.storage = b.storage) :
    a = b := by
  cases a
  cases b
  cases h1
  cases h2
  rfl

theorem managerExt {a b : ConnectionManager} (h1 : a.connections = b.connections)
    (h2 : a.operation_subscriptions = b.operation_subscriptions)
    (h3 : a.connection_sessions = b.connection_sessions)
    (h4 : a.message_queues = b.message_queues) : a = b := by
  cases a
  cases b
  cases h1
  cases h2
  cases h3
  cases h4
  rfl

/-- Saving the same session twice is the same as saving it once. -/
theorem save_save (s : InMemoryStorage) (v : WebSocketSession) :
    (s.save_ws_session v).save_ws_session v = s.save_ws_session v := by
  simp [InMemoryStorage.save_ws_session, dictInsert_insert]

/-- Idempotence of `filter (· != c)`. -/
theorem filter_ne_idem (c : String) (l : List String) :
    ((l.filter fun x => x != c).filter fun x => x != c) =
      l.filter fun x => x != c := by
  simp [List.filter_filter]

/-- The discard-and-drop-empties pass of `disconnect` is idempotent. -/
theorem prune_idem (c : String) (subs : List (String × List String)) :
    ((((subs.map fun p => (p.1, p.2.filter fun x => x != c)).filter
          fun p => ¬ p.2.isEmpty).map fun p => (p.1, p.2.filter fun x => x != c)).filter
        fun p => ¬ p.2.isEmpty) =
      (subs.map fun p => (p.1, p.2.filter fun x => x != c)).filter
        fun p => ¬ p.2.isEmpty := by
  induction subs with
  | nil => rfl
  | cons p rest ih =>
    obtain ⟨k, v⟩ := p
    cases he : (v.filter fun x => x != c).isEmpty with
    | true =>
      have hGcons :
          ((((k, v) :: rest).map fun p => (p.1, p.2.filter fun x => x != c)).filter
              fun p => ¬ p.2.isEmpty) =
            ((rest.map fun p => (p.1, p.2.filter fun x => x != c)).filter
              fun p => ¬ p.2.isEmpty) := by
        rw [List.map_cons, List.filter_cons]
        simp [he]
      rw [hGcons, ih]
    | false =>
      have hGcons :
          ((((k, v) :: rest).map fun p => (p.1, p.2.filter fun x => x != c)).filter
              fun p => ¬ p.2.isEmpty) =
            (k, v.filter fun x => x != c) ::
              ((rest.map fun p => (p.1, p.2.filter fun x => x != c)).filter
                fun p => ¬ p.2.isEmpty) := by
        rw [List.map_cons, List.filter_cons]
        simp [he]
      rw [hGcons, List.map_cons, List.filter_cons, filter_ne_idem]
      simp only [he]
      rw [ih]
      simp

/-! ### Shape lemmas for `disconnect` and `unsubscribe_from_operation` -/

theorem disconnect_manager_eq (sys : Sys) (c : String) :
    (ConnectionManager.disconnect sys c).manager =
      { sys.manager with
        connections := dictErase sys.manager.connections c
        connection_sessions := dictErase sys.manager.connection_sessions c
        operation_subscriptions :=
          (sys.manager.operation_subscriptions.map fun p =>
              (p.1, p.2.filter fun x => x != c)).filter fun p => ¬ p.2.isEmpty } := rfl

theorem disconnect_storage_eq (sys : Sys) (c : String) :
    (ConnectionManager.disconnect sys c).storage =
      match sys.storage.get_ws_session c with
      | some ws_session =>
        sys.storage.save_ws_session { ws_session with is_connected := false }
      | none => sys.storage := rfl

theorem unsubscribe_manager_eq (sys : Sys) (c op : String) :
    (ConnectionManager.unsubscribe_from_operation sys c op).manager =
      match dictGet sys.manager.operation_subscriptions op with
      | some current =>
        { sys.manager with
          operation_subscriptions :=
            if (current.filter fun x => x != c).isEmpty then
              dictErase sys.manager.operation_subscriptions op
            else
              dictInsert sys.manager.operation_subscriptions op
                (current.filter fun x => x != c) }
      | none => sys.manager := rfl

theorem unsubscribe_storage_eq (sys : Sys) (c op : String) :
    (ConnectionManager.unsubscribe_from_operation sys c op).storage =
      match sys.storage.get_ws_session c with
      | some ws_session =>
        if op ∈ ws_session.active_operations then
          sys.storage.save_ws_session
            { ws_session with
              active_operations := ws_session.active_operations.erase op }
        else sys.storage
      | none => sys.storage := rfl

/-- C6: `remove` (disconnect) and `unsubscribe` are idempotent — a second
call produces no further state change — and `remove` deletes the
connection from every operation's subscriber set. The one hypothesis is
that no stored session lists the same operation twice in
`active_operations` (which `subscribe_to_operation` guarantees, appending
only when absent). -/
theorem c6_remove_unsubscribe_idempotent (sys : Sys) (c op : String)
    (hcount : ∀ p ∈ sys.storage.ws_sessions,
      ((p.2 : WebSocketSession).active_operations.count op) ≤ 1) :
    ConnectionManager.disconnect (ConnectionManager.disconnect sys c) c =
      ConnectionManager.disconnect sys c
    ∧ (∀ op', c ∉ subscribersOf (ConnectionManager.disconnect sys c) op')
    ∧ ConnectionManager.unsubscribe_from_operation
        (ConnectionManager.unsubscribe_from_operation sys c op) c op =
      ConnectionManager.unsubscribe_from_operation sys c op := by
  refine ⟨?_, ?_, ?_⟩
  · -- disconnect idempotence
    apply sysExt
    · rw [disconnect_manager_eq, disconnect_manager_eq]
      apply managerExt
      · exact dictErase_erase _ _
      · exact prune_idem c _
      · exact dictErase_erase _ _
      · rfl
    · rw [disconnect_storage_eq (ConnectionManager.disconnect sys c) c]
      cases hs : sys.storage.get_ws_session c with
      | none =>
        have hst : (ConnectionManager.disconnect sys c).storage = sys.storage := by
          rw [disconnect_storage_eq, hs]
        rw [hst]
        unfold InMemoryStorage.get_ws_session at hs ⊢
        rw [hs]
      | some sess =>
        have hst : (ConnectionManager.disconnect sys c).storage =
            sys.storage.save_ws_session { sess with is_connected := false } := by
          rw [disconnect_storage_eq, hs]
        rw [hst]
        by_cases hK : sess.connection_id = c
        · have hget : (sys.storage.save_ws_session
              { sess with is_connected := false }).get_ws_session c =
              some { sess with is_connected := false } := by
            unfold InMemoryStorage.save_ws_session InMemoryStorage.get_ws_session
            show dictGet (dictInsert sys.storage.ws_sessions sess.connection_id _) c = _
            rw [hK]
            exact dictGet_insert_self _ _ _
          rw [hget]
          exact save_save _ _
        · have hget : (sys.storage.save_ws_session
              { sess with is_connected := false }).get_ws_session c = some sess := by
            unfold InMemoryStorage.save_ws_session InMemoryStorage.get_ws_session
            show dictGet (dictInsert sys.storage.ws_sessions sess.connection_id _) c = _
            rw [dictGet_insert_ne _ _ _ _ (fun e => hK e.symm)]
            unfold InMemoryStorage.get_ws_session at hs
            exact hs
          rw [hget]
          exact save_save _ _
  · -- removal from every subscriber set
    intro op'
    cases hg : dictGet (ConnectionManager.disconnect sys c).manager.operation_subscriptions
        op' with
    | none => simp [subscribersOf, dictGetD, hg]
    | some v =>
      have hmem := mem_of_dictGet_eq_some hg
      rw [disconnect_manager_eq] at hmem
      have hmem' := List.mem_filter.mp hmem
      obtain ⟨q, _, hq⟩ := List.mem_map.mp hmem'.1
      have hv : v = q.2.filter fun x => x != c := (congrArg Prod.snd hq).symm
      simp only [subscribersOf, dictGetD, hg, Option.getD_some]
      intro hc
      rw [hv] at hc
      have hne := (List.mem_filter.mp hc).2
      simp at hne
  · -- unsubscribe idempotence
    apply sysExt
    · cases h : dictGet sys.manager.operation_subscriptions op with
      | none =>
        have hm1 : (ConnectionManager.unsubscribe_from_operation sys c op).manager =
            sys.manager := by rw [unsubscribe_manager_eq, h]
        have hs2 : dictGet
            (ConnectionManager.unsubscribe_from_operation sys c op).manager.operation_subscriptions
            op = none := by
          rw [hm1]
          exact h
        rw [unsubscribe_manager_eq, hs2]
      | some cur =>
        cases hce : (cur.filter fun x => x != c).isEmpty with
        | true =>
          have hm1 : (ConnectionManager.unsubscribe_from_operation sys c op).manager =
              { sys.manager with
                operation_subscriptions :=
                  dictErase sys.manager.operation_subscriptions op } := by
            rw [unsubscribe_manager_eq, h]
            simp [hce]
          have hs2 : dictGet
              (ConnectionManager.unsubscribe_from_operation sys c op).manager.operation_subscriptions
              op = none := by
            rw [hm1]
            exact dictGet_erase_self _ _
          rw [unsubscribe_manager_eq, hs2]
        | false =>
          have hm1 : (ConnectionManager.unsubscribe_from_operation sys c op).manager =
              { sys.manager with
                operation_subscriptions :=
                  dictInsert sys.manager.operation_subscriptions op
                    (cur.filter fun x => x != c) } := by
            rw [unsubscribe_manager_eq, h]
            simp [hce]
          have hs2 : dictGet
              (ConnectionManager.unsubscribe_from_operation sys c op).manager.operation_subscriptions
              op = some (cur.filter fun x => x != c) := by
            rw [hm1]
            exact dictGet_insert_self _ _ _
          have hm2 :
              (ConnectionManager.unsubscribe_from_operation
                (ConnectionManager.unsubscribe_from_operation sys c op) c op).manager =
              { (ConnectionManager.unsubscribe_from_operation sys c op).manager with
                operation_subscriptions :=
                  if ((cur.filter fun x => x != c).filter fun x => x != c).isEmpty then
                    dictErase
                      (ConnectionManager.unsubscribe_from_operation sys
                        c op).manager.operation_subscriptions op
                  else
                    dictInsert
                      (ConnectionManager.unsubscribe_from_operation sys
                        c op).manager.operation_subscriptions op
                      ((cur.filter fun x => x != c).filter fun x => x != c) } := by
            rw [unsubscribe_manager_eq, hs2]
          have hins2 : dictInsert
              (ConnectionManager.unsubscribe_from_operation sys
                c op).manager.operation_subscriptions op (cur.filter fun x => x != c) =
              (ConnectionManager.unsubscribe_from_operation sys
                c op).manager.operation_subscriptions := by
            rw [hm1]
            exact dictInsert_insert _ _ _ _
          rw [hm2, filter_ne_idem]
          simp only [hce, Bool.false_eq_true, if_false]
          rw [hins2]
    · cases hs : sys.storage.get_ws_session c with
      | none =>
        have hst : (ConnectionManager.unsubscribe_from_operation sys c op).storage =
            sys.storage := by rw [unsubscribe_storage_eq, hs]
        rw [unsubscribe_storage_eq, hst]
        unfold InMemoryStorage.get_ws_session at hs ⊢
        rw [hs]
      | some sess =>
        by_cases hin : op ∈ sess.active_operations
        · have hst : (ConnectionManager.unsubscribe_from_operation sys c op).storage =
              sys.storage.save_ws_session
                { sess with
                  active_operations := sess.active_operations.erase op } := by
            rw [unsubscribe_storage_eq, hs]
            simp [hin]
          rw [unsubscribe_storage_eq, hst]
          by_cases hK : sess.connection_id = c
          · have hget : (sys.storage.save_ws_session
                { sess with active_operations := sess.active_operations.erase op
                }).get_ws_session c =
                some { sess with
                  active_operations := sess.active_operations.erase op } := by
              unfold InMemoryStorage.save_ws_session InMemoryStorage.get_ws_session
              show dictGet (dictInsert sys.storage.ws_sessions sess.connection_id _) c = _
              rw [hK]
              exact dictGet_insert_self _ _ _
            rw [hget]
            have hc1 : sess.active_operations.count op ≤ 1 :=
              hcount (c, sess) (mem_of_dictGet_eq_some hs)
            have hnotin : op ∉ sess.active_operations.erase op := by
              intro hmem
              have hpos := List.count_pos_iff.mpr hmem
              rw [List.count_erase_self] at hpos
              omega
            simp [hnotin]
          · have hget : (sys.storage.save_ws_session
                { sess with active_operations := sess.active_operations.erase op
                }).get_ws_session c = some sess := by
              unfold InMemoryStorage.save_ws_session InMemoryStorage.get_ws_session
              show dictGet (dictInsert sys.storage.ws_sessions sess.connection_id _) c = _
              rw [dictGet_insert_ne _ _ _ _ (fun e => hK e.symm)]
              unfold InMemoryStorage.get_ws_session at hs
              exact hs
            rw [hget]
            simp only [hin, if_true]
            exact save_save _ _
        · have hst : (ConnectionManager.unsubscribe_from_operation sys c op).storage =
              sys.storage := by
            rw [unsubscribe_storage_eq, hs]
            simp [hin]
          rw [unsubscribe_storage_eq, hst]
          unfold InMemoryStorage.get_ws_session at hs ⊢
          rw [hs]
          simp [hin]

/-- C6 (witness at a concrete input). -/
theorem c6_remove_unsubscribe_idempotent_witness :
    ConnectionManager.disconnect (ConnectionManager.disconnect sysOne "c1") "c1" =
      ConnectionManager.disconnect sysOne "c1"
    ∧ (∀ op', "c1" ∉ subscribersOf (ConnectionManager.disconnect sysOne "c1") op')
    ∧ ConnectionManager.unsubscribe_from_operation
        (ConnectionManager.unsubscribe_from_operation sysOne "c1" "op1") "c1" "op1" =
      ConnectionManager.unsubscribe_from_operation sysOne "c1" "op1" :=
  c6_remove_unsubscribe_idempotent sysOne "c1" "op1" (by decide)

/-- C7 (counterexample): with `now = 10` and retention `W = 3`, a message
whose timestamp is exactly `now - W = 7` is **not** older than `now - W`,
yet `cleanup_old_ws_messages` removes it (the code keeps only
`timestamp > cutoff`, removing the boundary instant as well), emptying and
deleting the `op1` history key. -/
theorem c7_prune_boundary_counterexample :
    (stBoundary.cleanup_old_ws_messages 10 3).2 = 1
    ∧ dictGet (stBoundary.cleanup_old_ws_messages 10 3).1.ws_messages "op1" = none
    ∧ (stBoundary.cleanup_old_ws_messages 10 3).1.get_ws_messages "op1" none = []
    ∧ (mkMessage "mb" "op1" 0 MessageType.progress 7).timestamp = 7
    ∧ ¬ ((7 : Int) < 10 - 3)
    ∧ (stBoundary.cleanup_old_ws_messages 10 3).1.get_operation "op1" = some opRec := by
  decide

/-- Lookup after the prune-and-drop-empties pass: for a uniquely-keyed
history map, an operation's entry survives exactly when some message is
strictly newer than the cutoff, and then holds exactly those messages. -/
theorem lookup_pruned (l : List (String × List WebSocketMessage)) (cutoff : Int)
    (op : String) (hnodup : (l.map Prod.fst).Nodup) :
    dictGet ((l.map fun p =>
        (p.1, p.2.filter fun (m : WebSocketMessage) => cutoff < m.timestamp)).filter
      fun p => ¬ p.2.isEmpty) op =
      (if ((dictGetD l op []).filter
          fun (m : WebSocketMessage) => cutoff < m.timestamp).isEmpty then none
       else some ((dictGetD l op []).filter
          fun (m : WebSocketMessage) => cutoff < m.timestamp)) := by
  induction l with
  | nil => simp [dictGetD, dictGet_nil]
  | cons p rest ih =>
    obtain ⟨k, v⟩ := p
    have hnodup' : (k :: rest.map Prod.fst).Nodup := by
      rw [List.map_cons] at hnodup
      exact hnodup
    have hnd := List.nodup_cons.mp hnodup'
    by_cases hk : k = op
    · subst hk
      have hget : dictGetD ((k, v) :: rest) k [] = v := by
        simp [dictGetD, dictGet_cons]
      rw [hget]
      cases he : (v.filter fun (m : WebSocketMessage) => cutoff < m.timestamp).isEmpty with
      | true =>
        have hdrop :
            ((((k, v) :: rest).map fun p =>
                (p.1, p.2.filter fun (m : WebSocketMessage) => cutoff < m.timestamp)).filter
              fun p => ¬ p.2.isEmpty) =
              ((rest.map fun p =>
                (p.1, p.2.filter fun (m : WebSocketMessage) => cutoff < m.timestamp)).filter
              fun p => ¬ p.2.isEmpty) := by
          rw [List.map_cons, List.filter_cons]
          simp [he]
        rw [hdrop]
        simp only [he, if_true]
        apply dictGet_eq_none_of_not_mem_keys
        intro hmem
        obtain ⟨q, hq1, hq2⟩ := List.mem_map.mp hmem
        have hq3 := List.mem_filter.mp hq1
        obtain ⟨r, hr1, hr2⟩ := List.mem_map.mp hq3.1
        have : k ∈ rest.map Prod.fst := by
          rw [← hq2, ← hr2]
          exact List.mem_map.mpr ⟨r, hr1, rfl⟩
        exact hnd.1 this
      | false =>
        have hkeep :
            ((((k, v) :: rest).map fun p =>
                (p.1, p.2.filter fun (m : WebSocketMessage) => cutoff < m.timestamp)).filter
              fun p => ¬ p.2.isEmpty) =
              (k, v.filter fun (m : WebSocketMessage) => cutoff < m.timestamp) ::
              ((rest.map fun p =>
                (p.1, p.2.filter fun (m : WebSocketMessage) => cutoff < m.timestamp)).filter
              fun p => ¬ p.2.isEmpty) := by
          rw [List.map_cons, List.filter_cons]
          simp [he]
        rw [hkeep, dictGet_cons]
        simp [he]
    · have hget : dictGetD ((k, v) :: rest) op [] = dictGetD rest op [] := by
        simp [dictGetD, dictGet_cons, hk]
      rw [hget]
      cases he : (v.filter fun (m : WebSocketMessage) => cutoff < m.timestamp).isEmpty with
      | true =>
        have hdrop :
            ((((k, v) :: rest).map fun p =>
                (p.1, p.2.filter fun (m : WebSocketMessage) => cutoff < m.timestamp)).filter
              fun p => ¬ p.2.isEmpty) =
              ((rest.map fun p =>
                (p.1, p.2.filter fun (m : WebSocketMessage) => cutoff < m.timestamp)).filter
              fun p => ¬ p.2.isEmpty) := by
          rw [List.map_cons, List.filter_cons]
          simp [he]
        rw [hdrop]
        exact ih hnd.2
      | false =>
        have hkeep :
            ((((k, v) :: rest).map fun p =>
                (p.1, p.2.filter fun (m : WebSocketMessage) => cutoff < m.timestamp)).filter
              fun p => ¬ p.2.isEmpty) =
              (k, v.filter fun (m : WebSocketMessage) => cutoff < m.timestamp) ::
              ((rest.map fun p =>
                (p.1, p.2.filter fun (m : WebSocketMessage) => cutoff < m.timestamp)).filter
              fun p => ¬ p.2.isEmpty) := by
          rw [List.map_cons, List.filter_cons]
          simp [he]
        rw [hkeep, dictGet_cons]
        have hkop : (k == op) = false := by simpa using hk
        rw [hkop]
        simp only [Bool.false_eq_true, if_false]
        exact ih hnd.2

/-- C7 (amended): pruning with window `W` at time `now` removes exactly
the messages whose timestamp is `≤ now - W` (older than **or equal to**
the cutoff, not strictly older); if this empties an operation's log the
history key is removed entirely, and the operation records — and hence
`get_operation` — and the session store are untouched. -/
theorem c7_prune_removes_up_to_cutoff (s : InMemoryStorage) (now W : Int)
    (op : String) (hnodup : (s.ws_messages.map Prod.fst).Nodup) :
    dictGet (s.cleanup_old_ws_messages now W).1.ws_messages op =
      (if ((dictGetD s.ws_messages op []).filter
          fun (m : WebSocketMessage) => now - W < m.timestamp).isEmpty then none
       else some ((dictGetD s.ws_messages op []).filter
          fun (m : WebSocketMessage) => now - W < m.timestamp))
    ∧ (s.cleanup_old_ws_messages now W).1.operations = s.operations
    ∧ (s.cleanup_old_ws_messages now W).1.ws_sessions = s.ws_sessions
    ∧ (∀ oid, (s.cleanup_old_ws_messages now W).1.get_operation oid = s.get_operation oid) :=
  ⟨lookup_pruned s.ws_messages (now - W) op hnodup, rfl, rfl, fun _ => rfl⟩

/-- C7 (witness for the amended theorem at a concrete input). -/
theorem c7_prune_removes_up_to_cutoff_witness :
    dictGet (stBoundary.cleanup_old_ws_messages 10 3).1.ws_messages "op1" =
      (if ((dictGetD stBoundary.ws_messages "op1" []).filter
          fun (m : WebSocketMessage) => 10 - 3 < m.timestamp).isEmpty then none
       else some ((dictGetD stBoundary.ws_messages "op1" []).filter
          fun (m : WebSocketMessage) => 10 - 3 < m.timestamp))
    ∧ (stBoundary.cleanup_old_ws_messages 10 3).1.operations = stBoundary.operations :=
  ⟨(c7_prune_removes_up_to_cutoff stBoundary 10 3 "op1" (by decide)).1,
   (c7_prune_removes_up_to_cutoff stBoundary 10 3 "op1" (by decide)).2.1⟩
